import Mathlib

/-!
Verification of the SPH fluid simulator in `src/sph.cpp` (classes `SPHTestBase`,
`SPHTestBruteForce`, `SPHTestPangu`).

Modelling conventions:
* The C++ `real` (32-bit float) is modelled as `ℚ`; the decimal literals of the
  source (`0.1`, `0.0003`, `1e-8`, ...) are taken at their exact decimal value.
* The source stores the per-particle scratch values in the fourth SIMD lane of
  `position`/`velocity` (`p.position[3]`, `p.velocity[3]`).  Following the
  spec's data model, these are modelled as two separate scalar fields
  `density_inverse` and `pressure` of the particle; the three spatial
  components are a `Vector3`.  All vector arithmetic of the source
  (`+`, `-`, scalar `*`, `length2`) acts on the three spatial components.
* The constant `pi` of the source is a runtime floating-point constant whose
  exact value is not part of this repository's sources; it is kept as an
  explicit parameter `pi : ℚ` of every definition that uses the density
  normalization constant `c = 315 / (64 pi h⁹)`.
-/

set_option maxRecDepth 8000
set_option allowUnsafeReducibility true
attribute [semireducible] Rat.add Rat.mul Rat.inv Rat.div Rat.sub Rat.neg

namespace SPH

/-- The three spatial components of the source's `Vector3f`. -/
@[ext] structure Vector3 where
  x : ℚ
  y : ℚ
  z : ℚ
deriving DecidableEq

namespace Vector3

instance : Zero Vector3 := ⟨⟨0, 0, 0⟩⟩
instance : Add Vector3 := ⟨fun a b => ⟨a.x + b.x, a.y + b.y, a.z + b.z⟩⟩
instance : Sub Vector3 := ⟨fun a b => ⟨a.x - b.x, a.y - b.y, a.z - b.z⟩⟩
instance : SMul ℚ Vector3 := ⟨fun s v => ⟨s * v.x, s * v.y, s * v.z⟩⟩

@[simp] theorem zero_def : (0 : Vector3) = ⟨0, 0, 0⟩ := rfl

@[simp] theorem add_def (a b : Vector3) : a + b = ⟨a.x + b.x, a.y + b.y, a.z + b.z⟩ := rfl

@[simp] theorem sub_def (a b : Vector3) : a - b = ⟨a.x - b.x, a.y - b.y, a.z - b.z⟩ := rfl

@[simp] theorem smul_def (s : ℚ) (v : Vector3) : s • v = ⟨s * v.x, s * v.y, s * v.z⟩ := rfl

instance : AddCommMonoid Vector3 where
  add := (· + ·)
  zero := 0
  add_assoc a b c := by ext <;> simp <;> ring
  zero_add a := by ext <;> simp
  add_zero a := by ext <;> simp
  add_comm a b := by ext <;> simp <;> ring
  nsmul := nsmulRec

/-- `length2(v) = dot(v, v)` of the source, over the three spatial components. -/
def length2 (v : Vector3) : ℚ := v.x * v.x + v.y * v.y + v.z * v.z

end Vector3

/-- A particle of the brute-force variant.  The source's `Particle` holds two
4-wide vectors; `density_inverse` models the scratch slot `position[3]` and
`pressure` models the scratch slot `velocity[3]` (the spec's data model). -/
@[ext] structure Particle where
  position : Vector3
  velocity : Vector3
  density_inverse : ℚ
  pressure : ℚ
deriving DecidableEq

/-- `dx = 1.0 / grid_resolution[0]` with `N = 20` (`SPHTestBase` constructor). -/
def dx : ℚ := 1 / 20

/-- `inv_dx = 1.0 / dx`. -/
def inv_dx : ℚ := 1 / dx

/-- `dt = 0.0003` (`SPHTestBase` constructor). -/
def dt : ℚ := 3 / 10000

/-- `frame_dt = 0.1` (`SPHTestBase` constructor). -/
def frame_dt : ℚ := 1 / 10

/-- `h = dx / 2` (`SPHTestBase` constructor). -/
def h : ℚ := dx / 2

/-- `gravity = Vector3(0, -100, 0)` (`SPHTestBase` constructor). -/
def gravity : Vector3 := ⟨0, -100, 0⟩

/-- `rho0 = 1` (`SPHTestBruteForce::substep`). -/
def rho0 : ℚ := 1

/-- `k = 1e-8` (`SPHTestBruteForce::substep`). -/
def k : ℚ := 1 / 100000000

/-- The density normalization constant `c = 315 / (64 * pi * pow<9>(h))` of
`SPHTestBruteForce::substep`, parametrized by the value of `pi`. -/
def cNorm (pi : ℚ) : ℚ := 315 / (64 * pi * h ^ 9)

/-- One neighbor's contribution to the density sum of `SPHTestBruteForce::substep`:
`if (dpos2 < h*h) rho += max(0, pow<3>(h*h - dpos2))` with `dpos = q.position - p.position`. -/
def densityContrib (p q : Particle) : ℚ :=
  let dpos := q.position - p.position
  let dpos2 := Vector3.length2 dpos
  if dpos2 < h * h then max 0 ((h * h - dpos2) ^ 3) else 0

/-- The density sum of particle `p` over the whole particle list (the inner
`for (auto &q : particles)` loop of the density pass). -/
def rhoSum (ps : List Particle) (p : Particle) : ℚ := (ps.map (densityContrib p)).sum

/-- `rho` after the scaling `rho *= c`. -/
def rhoOf (pi : ℚ) (ps : List Particle) (p : Particle) : ℚ := cNorm pi * rhoSum ps p

/-- The density-pass update of one particle:
`p.position[3] = 1.0/rho; p.velocity[3] = k * (pow<7>(rho/rho0) - 1)`. -/
def densityUpdate (pi : ℚ) (ps : List Particle) (p : Particle) : Particle :=
  let rho := rhoOf pi ps p
  { p with density_inverse := 1 / rho, pressure := k * ((rho / rho0) ^ 7 - 1) }

/-- The first (density) pass of `SPHTestBruteForce::substep`.  The source's
in-place loop writes only the scratch fields, which this pass never reads
(it reads only the spatial `position` components), so the pass is a `map`
over the list of particles. -/
def densityPass (pi : ℚ) (ps : List Particle) : List Particle :=
  ps.map (densityUpdate pi ps)

/-- `grad = -6 * (h*h - dpos2) * dpos` (force pass of `SPHTestBruteForce::substep`). -/
def gradKernel (dpos : Vector3) (dpos2 : ℚ) : Vector3 := (-6 * (h * h - dpos2)) • dpos

/-- One neighbor's contribution to the accumulated pressure-gradient vector of
the force pass: `(p.velocity[3]*inv_rho*inv_rho + q.velocity[3]*inv_rho1*inv_rho1) * grad`
guarded by `dpos2 < h*h`. -/
def pressureContrib (p q : Particle) : Vector3 :=
  let dpos := q.position - p.position
  let dpos2 := Vector3.length2 dpos
  if dpos2 < h * h then
    (p.pressure * p.density_inverse * p.density_inverse
      + q.pressure * q.density_inverse * q.density_inverse) • gradKernel dpos dpos2
  else 0

/-- The accumulated `pressure` vector for particle `p` (inner loop of the force
pass), summed over the current particle list `ps`. -/
def pressureForce (ps : List Particle) (p : Particle) : Vector3 :=
  (ps.map (pressureContrib p)).sum

/-- Floor clamp `if (p.position.y < h / 2) { p.position.y = h / 2;
p.velocity.y = max(p.velocity.y, 0); }`. -/
def clampY (p : Particle) : Particle :=
  if p.position.y < h / 2 then
    { p with position := { p.position with y := h / 2 },
             velocity := { p.velocity with y := max p.velocity.y 0 } } else p

/-- `if (p.position.x < 0) { p.position.x = 0; p.velocity.x = max(p.velocity.x, 0); }`. -/
def clampXlow (p : Particle) : Particle :=
  if p.position.x < 0 then
    { p with position := { p.position with x := 0 },
             velocity := { p.velocity with x := max p.velocity.x 0 } } else p

/-- `if (p.position.z < 0) { p.position.z = 0; p.velocity.z = max(p.velocity.z, 0); }`. -/
def clampZlow (p : Particle) : Particle :=
  if p.position.z < 0 then
    { p with position := { p.position with z := 0 },
             velocity := { p.velocity with z := max p.velocity.z 0 } } else p

/-- `if (p.position.x > 1) { p.position.x = 1; p.velocity.x = min(p.velocity.x, 0); }`. -/
def clampXhigh (p : Particle) : Particle :=
  if p.position.x > 1 then
    { p with position := { p.position with x := 1 },
             velocity := { p.velocity with x := min p.velocity.x 0 } } else p

/-- `if (p.position.z > 1) { p.position.z = 1; p.velocity.z = min(p.velocity.z, 0); }`. -/
def clampZhigh (p : Particle) : Particle :=
  if p.position.z > 1 then
    { p with position := { p.position with z := 1 },
             velocity := { p.velocity with z := min p.velocity.z 0 } } else p

/-- The boundary enforcement at the end of the force pass, five clamps applied
in source order: `y < h/2`, `x < 0`, `z < 0`, `x > 1`, `z > 1`. -/
def clampParticle (p : Particle) : Particle :=
  clampZhigh (clampXhigh (clampZlow (clampXlow (clampY p))))

/-- The force-pass update of one particle, reading neighbor data from the
current list `ps`:
`force = (k * pressure + gravity) * dt;`
`p.velocity[3] = 0; p.position[3] = 0;`
`p.velocity += force * dt; p.position += p.velocity * dt;` then the clamps.
(The two scratch resets touch fields disjoint from `velocity`/`position`.) -/
def forceUpdate (ps : List Particle) (p : Particle) : Particle :=
  let fp := pressureForce ps p
  let force := dt • (k • fp + gravity)
  let v := p.velocity + dt • force
  let pos := p.position + dt • v
  clampParticle { position := pos, velocity := v, density_inverse := 0, pressure := 0 }

/-- One iteration of the force pass's outer `for (auto &p : particles)` loop:
particle `i` is updated in place, reading the current (partially updated) list. -/
def forcePassStep (ps : List Particle) (i : ℕ) : List Particle :=
  match ps[i]? with
  | none => ps
  | some p => ps.set i (forceUpdate ps p)

/-- The second (force) pass of `SPHTestBruteForce::substep`: a sequential
in-place sweep over the particle indices. -/
def forcePass (ps : List Particle) : List Particle :=
  (List.range ps.length).foldl forcePassStep ps

/-- `SPHTestBruteForce::substep`: density pass, then force pass. -/
def substepBF (pi : ℚ) (ps : List Particle) : List Particle :=
  forcePass (densityPass pi ps)

/-- The number of iterations of the driver loop
`for (int i = 0; i < frame_dt / dt; i++)` in `SPHTestBase::advance`:
the body runs once for every integer `i` with `(i : real) < frame_dt / dt`,
which is `⌈frame_dt / dt⌉` iterations (the quotient is positive and the loop
counter is compared against the real quotient, not a truncated integer).
The characterization of the loop guard is proved in `claim4_amended`. -/
def substepsPerFrame : ℕ := Nat.ceil (frame_dt / dt)

/-- An invocation of the external output hook: the snapshot it is passed,
a list of (scaled position, visualization radius) pairs
(`OptiXParticle{Vector4(position * scale, radius)}`). -/
abbrev Snapshot := List (Vector3 × ℚ)

/-- `SPHTestBruteForce::output`: one `(p.position * 10, h * 10)` entry per particle. -/
def outputBF (ps : List Particle) : Snapshot :=
  ps.map fun p => ((10 : ℚ) • p.position, h * 10)

/-- The driver state of the brute-force variant: its particle list and the
`current_frame` counter of `SPHTestBase`. -/
structure BFState where
  particles : List Particle
  current_frame : ℤ
deriving DecidableEq

/-- `SPHTestBase::advance` for the brute-force variant: run the substep loop,
increment `current_frame`, and invoke the output hook once.  The second
component collects the output-hook invocations performed during the call. -/
def advanceBF (pi : ℚ) (s : BFState) : BFState × List Snapshot :=
  let ps := (substepBF pi)^[substepsPerFrame] s.particles
  ({ particles := ps, current_frame := s.current_frame + 1 }, [outputBF ps])

/-! ### The block-grid (`SPHTestPangu`) variant

The classes `TBlock` and `TaichiGrid` live in `taichi_grid.h`, which is not
part of this repository's sources; their behavior is modelled from the spec
(sections 3, 4.5): a sparse map from integer block coordinates to blocks, a
block owning a particle buffer and a fixed field-node array, `grid.advance`
building a new generation of blocks from the previous one, and the ancestor
map giving the 3³ neighborhood of a block in the previous generation.
`Block::size` is a fixed compile-time constant not visible in the sources;
it is kept as a parameter `bs`.  The particle buffer's fixed capacity
`MaxParticlesPerBlock` has no specified overflow behavior and is modelled as
unbounded. -/

/-- An integer 3-D block coordinate (`Vector3i`). -/
abbrev Int3 := ℤ × ℤ × ℤ

/-- Modelled from the spec: a `TBlock<char, Particle>` — a fixed array of
field nodes and a local particle buffer (`particle_count` is the buffer's
length). -/
structure PBlock where
  base_coord : Int3
  nodes : List ℤ
  particles : List Particle
deriving DecidableEq

/-- Modelled from the spec: the sparse grid — the list of touched block
coordinates together with the lookup from coordinates to blocks. -/
structure PGrid where
  coords : List Int3
  lookup : Int3 → Option PBlock

/-- The 3³ ancestor-neighborhood offsets (`Grid::Ancestors`, `an.data`). -/
def offsets27 : List Int3 :=
  ([-1, 0, 1] : List ℤ).flatMap fun a =>
    ([-1, 0, 1] : List ℤ).flatMap fun b =>
      ([-1, 0, 1] : List ℤ).map fun c => (a, b, c)

/-- Modelled from the spec: a block's base coordinate in grid-cell units is
its block coordinate scaled by `Block::size`. -/
def base_coordOf (bs : ℕ) (c : Int3) : Int3 :=
  ((bs : ℤ) * c.1, (bs : ℤ) * c.2.1, (bs : ℤ) * c.2.2)

/-- `grid_pos = p.position * inv_dx` (`SPHTestPangu::substep`). -/
def gridPos (p : Particle) : Vector3 := inv_dx • p.position

/-- The candidate test of `SPHTestPangu::substep`:
`particle_range[0] <= grid_pos && grid_pos < particle_range[1]`, componentwise,
with `particle_range[0] = base_coord - 0.5` and
`particle_range[1] = base_coord + Block::size - 0.5`. -/
def inRangeB (bs : ℕ) (c : Int3) (g : Vector3) : Prop :=
  ((bs : ℚ) * (c.1 : ℚ) - 1/2 ≤ g.x ∧ g.x < (bs : ℚ) * ((c.1 : ℚ) + 1) - 1/2) ∧
  ((bs : ℚ) * (c.2.1 : ℚ) - 1/2 ≤ g.y ∧ g.y < (bs : ℚ) * ((c.2.1 : ℚ) + 1) - 1/2) ∧
  ((bs : ℚ) * (c.2.2 : ℚ) - 1/2 ≤ g.z ∧ g.z < (bs : ℚ) * ((c.2.2 : ℚ) + 1) - 1/2)

instance (bs : ℕ) (c : Int3) (g : Vector3) : Decidable (inRangeB bs c g) := by
  unfold inRangeB
  infer_instance

/-- The particle-gather loop of `SPHTestPangu::substep`: over every ancestor
block of the 3³ neighborhood, copy into the new block every particle whose
`grid_pos` passes the candidate test (`b.add_particle(p)`). -/
def gatherInto (bs : ℕ) (g : PGrid) (c : Int3) : List Particle :=
  offsets27.flatMap fun o =>
    match g.lookup (c + o) with
    | none => []
    | some ab => ab.particles.filter fun p => decide (inRangeB bs c (gridPos p))

/-- The per-block update passed to `grid.advance` in `SPHTestPangu::substep`:
`TC_ASSERT(an[Vector3i(0)])` — a missing self ancestor is a fatal assertion,
modelled as `none`; otherwise the new block copies the self ancestor's
field-node array verbatim (`memcpy(b.nodes, an[Vector3i(0)]->nodes, ...)`)
and gathers the candidate particles of the ancestor neighborhood. -/
def updateBlock (bs : ℕ) (g : PGrid) (c : Int3) : Option PBlock :=
  match g.lookup c with
  | none => none
  | some self =>
    some { base_coord := base_coordOf bs c,
           nodes := self.nodes,
           particles := gatherInto bs g c }

/-- Modelled from the spec: `grid.advance` builds the new generation of blocks
from the previous generation, updating every existing block coordinate. -/
def advanceGrid (bs : ℕ) (g : PGrid) : PGrid :=
  { coords := g.coords,
    lookup := fun c => if c ∈ g.coords then updateBlock bs g c else none }

/-- Modelled from the spec: `grid.gather_particles()` — all particles of all
existing blocks. -/
def gatherParticles (g : PGrid) : List Particle :=
  g.coords.flatMap fun c =>
    match g.lookup c with
    | none => []
    | some b => b.particles

/-- The driver state of the block-grid variant. -/
structure PanguState where
  grid : PGrid
  current_frame : ℤ

/-- `SPHTestPangu::output`: one `(p.position * 3, 0.3)` entry per particle. -/
def outputPangu (g : PGrid) : Snapshot :=
  (gatherParticles g).map fun p => ((3 : ℚ) • p.position, 3/10)

/-- `SPHTestPangu::substep`: increments `current_frame`, advances the grid one
generation, and invokes the output hook (the returned snapshot). -/
def substepPangu (bs : ℕ) (s : PanguState) : PanguState × Snapshot :=
  let g := advanceGrid bs s.grid
  ({ grid := g, current_frame := s.current_frame + 1 }, outputPangu g)

/-- The substep loop of `SPHTestBase::advance` for the block-grid variant,
collecting the output-hook invocations made by the substeps. -/
def runSubstepsPangu (bs : ℕ) : ℕ → PanguState → PanguState × List Snapshot
  | 0, s => (s, [])
  | n + 1, s =>
    let r := substepPangu bs s
    let rest := runSubstepsPangu bs n r.1
    (rest.1, r.2 :: rest.2)

/-- `SPHTestBase::advance` for the block-grid variant: the substep loop
(each substep invoking the output hook itself), then the frame increment and
the output-hook invocation of `advance` itself. -/
def advancePangu (bs : ℕ) (s : PanguState) : PanguState × List Snapshot :=
  let r := runSubstepsPangu bs substepsPerFrame s
  ({ grid := r.1.grid, current_frame := r.1.current_frame + 1 },
   r.2 ++ [outputPangu r.1.grid])

/-! ### Helper lemmas -/

@[simp] lemma smul_zero_v (s : ℚ) : s • (0 : Vector3) = 0 := by
  ext <;> simp

lemma cNorm_pos {pi : ℚ} (hpi : 0 < pi) : 0 < cNorm pi := by
  have h9 : (0 : ℚ) < h ^ 9 := by norm_num [h, dx]
  have hden : (0 : ℚ) < 64 * pi * h ^ 9 := by positivity
  exact div_pos (by norm_num) hden

lemma densityContrib_nonneg (p q : Particle) : 0 ≤ densityContrib p q := by
  simp only [densityContrib]
  split
  · exact le_max_left 0 _
  · exact le_refl 0

lemma densityContrib_self (p : Particle) : densityContrib p p = (h * h) ^ 3 := by
  simp [densityContrib, Vector3.length2]
  norm_num [h, dx]

lemma le_rhoSum {ps : List Particle} {p : Particle} (hp : p ∈ ps) :
    (h * h) ^ 3 ≤ rhoSum ps p := by
  have h0 : ∀ x ∈ ps.map (densityContrib p), 0 ≤ x := by
    intro x hx
    obtain ⟨q, _, rfl⟩ := List.mem_map.mp hx
    exact densityContrib_nonneg p q
  have hmem : densityContrib p p ∈ ps.map (densityContrib p) :=
    List.mem_map_of_mem _ hp
  have hle := List.single_le_sum h0 _ hmem
  rwa [densityContrib_self] at hle

lemma pressureContrib_self (p : Particle) : pressureContrib p p = 0 := by
  simp [pressureContrib, gradKernel, Vector3.length2]

lemma pressureForce_single (p : Particle) : pressureForce [p] p = 0 := by
  simp [pressureForce, pressureContrib_self]

lemma forcePass_single (p : Particle) : forcePass [p] = [forceUpdate [p] p] := by
  show List.foldl forcePassStep [p] (List.range 1) = [forceUpdate [p] p]
  rw [show List.range 1 = [0] from rfl, List.foldl_cons, List.foldl_nil]
  simp [forcePassStep]

lemma substepBF_single (pi : ℚ) (p : Particle) :
    substepBF pi [p] =
      [clampParticle
        { position := p.position + dt • (p.velocity + dt • (dt • gravity)),
          velocity := p.velocity + dt • (dt • gravity),
          density_inverse := 0, pressure := 0 }] := by
  unfold substepBF densityPass
  rw [List.map_singleton, forcePass_single]
  unfold forceUpdate
  rw [pressureForce_single]
  simp [densityUpdate, smul_zero_v, zero_add]

lemma clampY_id {p : Particle} (hc : ¬ p.position.y < h / 2) : clampY p = p := by
  simp [clampY, hc]

lemma clampXlow_id {p : Particle} (hc : ¬ p.position.x < 0) : clampXlow p = p := by
  simp [clampXlow, hc]

lemma clampZlow_id {p : Particle} (hc : ¬ p.position.z < 0) : clampZlow p = p := by
  simp [clampZlow, hc]

lemma clampXhigh_id {p : Particle} (hc : ¬ p.position.x > 1) : clampXhigh p = p := by
  simp [clampXhigh, hc]

lemma clampZhigh_id {p : Particle} (hc : ¬ p.position.z > 1) : clampZhigh p = p := by
  simp [clampZhigh, hc]

lemma clampParticle_eq_self {p : Particle} (h1 : ¬ p.position.y < h / 2)
    (h2 : ¬ p.position.x < 0) (h3 : ¬ p.position.z < 0)
    (h4 : ¬ p.position.x > 1) (h5 : ¬ p.position.z > 1) :
    clampParticle p = p := by
  unfold clampParticle
  rw [clampY_id h1, clampXlow_id h2, clampZlow_id h3, clampXhigh_id h4, clampZhigh_id h5]

@[simp] lemma clampY_px (p : Particle) : (clampY p).position.x = p.position.x := by
  unfold clampY; split <;> rfl

@[simp] lemma clampY_pz (p : Particle) : (clampY p).position.z = p.position.z := by
  unfold clampY; split <;> rfl

@[simp] lemma clampY_vx (p : Particle) : (clampY p).velocity.x = p.velocity.x := by
  unfold clampY; split <;> rfl

@[simp] lemma clampY_vz (p : Particle) : (clampY p).velocity.z = p.velocity.z := by
  unfold clampY; split <;> rfl

@[simp] lemma clampY_py (p : Particle) :
    (clampY p).position.y = if p.position.y < h / 2 then h / 2 else p.position.y := by
  unfold clampY; split <;> rfl

@[simp] lemma clampY_vy (p : Particle) :
    (clampY p).velocity.y
      = if p.position.y < h / 2 then max p.velocity.y 0 else p.velocity.y := by
  unfold clampY; split <;> rfl

@[simp] lemma clampXlow_py (p : Particle) : (clampXlow p).position.y = p.position.y := by
  unfold clampXlow; split <;> rfl

@[simp] lemma clampXlow_pz (p : Particle) : (clampXlow p).position.z = p.position.z := by
  unfold clampXlow; split <;> rfl

@[simp] lemma clampXlow_vy (p : Particle) : (clampXlow p).velocity.y = p.velocity.y := by
  unfold clampXlow; split <;> rfl

@[simp] lemma clampXlow_vz (p : Particle) : (clampXlow p).velocity.z = p.velocity.z := by
  unfold clampXlow; split <;> rfl

@[simp] lemma clampXlow_px (p : Particle) :
    (clampXlow p).position.x = if p.position.x < 0 then 0 else p.position.x := by
  unfold clampXlow; split <;> rfl

@[simp] lemma clampXlow_vx (p : Particle) :
    (clampXlow p).velocity.x
      = if p.position.x < 0 then max p.velocity.x 0 else p.velocity.x := by
  unfold clampXlow; split <;> rfl

@[simp] lemma clampZlow_py (p : Particle) : (clampZlow p).position.y = p.position.y := by
  unfold clampZlow; split <;> rfl

@[simp] lemma clampZlow_px (p : Particle) : (clampZlow p).position.x = p.position.x := by
  unfold clampZlow; split <;> rfl

@[simp] lemma clampZlow_vy (p : Particle) : (clampZlow p).velocity.y = p.velocity.y := by
  unfold clampZlow; split <;> rfl

@[simp] lemma clampZlow_vx (p : Particle) : (clampZlow p).velocity.x = p.velocity.x := by
  unfold clampZlow; split <;> rfl

@[simp] lemma clampZlow_pz (p : Particle) :
    (clampZlow p).position.z = if p.position.z < 0 then 0 else p.position.z := by
  unfold clampZlow; split <;> rfl

@[simp] lemma clampZlow_vz (p : Particle) :
    (clampZlow p).velocity.z
      = if p.position.z < 0 then max p.velocity.z 0 else p.velocity.z := by
  unfold clampZlow; split <;> rfl

@[simp] lemma clampXhigh_py (p : Particle) : (clampXhigh p).position.y = p.position.y := by
  unfold clampXhigh; split <;> rfl

@[simp] lemma clampXhigh_pz (p : Particle) : (clampXhigh p).position.z = p.position.z := by
  unfold clampXhigh; split <;> rfl

@[simp] lemma clampXhigh_vy (p : Particle) : (clampXhigh p).velocity.y = p.velocity.y := by
  unfold clampXhigh; split <;> rfl

@[simp] lemma clampXhigh_vz (p : Particle) : (clampXhigh p).velocity.z = p.velocity.z := by
  unfold clampXhigh; split <;> rfl

@[simp] lemma clampXhigh_px (p : Particle) :
    (clampXhigh p).position.x = if p.position.x > 1 then 1 else p.position.x := by
  unfold clampXhigh; split <;> rfl

@[simp] lemma clampXhigh_vx (p : Particle) :
    (clampXhigh p).velocity.x
      = if p.position.x > 1 then min p.velocity.x 0 else p.velocity.x := by
  unfold clampXhigh; split <;> rfl

@[simp] lemma clampZhigh_py (p : Particle) : (clampZhigh p).position.y = p.position.y := by
  unfold clampZhigh; split <;> rfl

@[simp] lemma clampZhigh_px (p : Particle) : (clampZhigh p).position.x = p.position.x := by
  unfold clampZhigh; split <;> rfl

@[simp] lemma clampZhigh_vy (p : Particle) : (clampZhigh p).velocity.y = p.velocity.y := by
  unfold clampZhigh; split <;> rfl

@[simp] lemma clampZhigh_vx (p : Particle) : (clampZhigh p).velocity.x = p.velocity.x := by
  unfold clampZhigh; split <;> rfl

@[simp] lemma clampZhigh_pz (p : Particle) :
    (clampZhigh p).position.z = if p.position.z > 1 then 1 else p.position.z := by
  unfold clampZhigh; split <;> rfl

@[simp] lemma clampZhigh_vz (p : Particle) :
    (clampZhigh p).velocity.z
      = if p.position.z > 1 then min p.velocity.z 0 else p.velocity.z := by
  unfold clampZhigh; split <;> rfl

/-- The vertical coordinate of the free-fall trajectory started at rest from
height 1/2: after `n` substeps of the double-`dt` integration,
`y = 1/2 - 100 dt² dt (1 + 2 + ... + n)`. -/
def ffY (n : ℕ) : ℚ := 1/2 - 27/20000000000 * n * (n + 1)

/-- The vertical velocity of the free-fall trajectory: `-100 dt² n` after `n`
substeps. -/
def ffVel (n : ℕ) : ℚ := -(9/1000000) * n

/-- The free-fall particle after `n` substeps. -/
def ffParticle (n : ℕ) : Particle :=
  { position := ⟨1/2, ffY n, 1/2⟩, velocity := ⟨0, ffVel n, 0⟩,
    density_inverse := 0, pressure := 0 }

lemma ffY_lb {n : ℕ} (hn : n ≤ 10000) : 1/80 ≤ ffY n := by
  have h1 : (n : ℚ) ≤ 10000 := by exact_mod_cast hn
  have h2 : (0 : ℚ) ≤ (n : ℚ) := Nat.cast_nonneg n
  have hprod : (n : ℚ) * ((n : ℚ) + 1) ≤ 10000 * 10001 :=
    mul_le_mul h1 (by linarith) (by linarith) (by norm_num)
  unfold ffY
  push_cast
  nlinarith [hprod]

lemma ff_step (pi : ℚ) {n : ℕ} (hn : n + 1 ≤ 10000) :
    substepBF pi [ffParticle n] = [ffParticle (n + 1)] := by
  rw [substepBF_single]
  have hupd :
      ({ position := (ffParticle n).position +
            dt • ((ffParticle n).velocity + dt • (dt • gravity)),
          velocity := (ffParticle n).velocity + dt • (dt • gravity),
          density_inverse := 0, pressure := 0 } : Particle) = ffParticle (n + 1) := by
    unfold ffParticle ffVel ffY
    ext <;> simp [dt, gravity] <;> push_cast <;> ring
  rw [hupd]
  rw [clampParticle_eq_self]
  · show ¬ ffY (n + 1) < h / 2
    rw [not_lt, show h / 2 = 1/80 by norm_num [h, dx]]
    exact ffY_lb hn
  · show ¬ (1/2 : ℚ) < 0
    norm_num
  · show ¬ (1/2 : ℚ) < 0
    norm_num
  · show ¬ (1/2 : ℚ) > 1
    norm_num
  · show ¬ (1/2 : ℚ) > 1
    norm_num

lemma ff_iterate (pi : ℚ) : ∀ n : ℕ, n ≤ 10000 →
    (substepBF pi)^[n] [ffParticle 0] = [ffParticle n]
  | 0, _ => by simp
  | m + 1, hm => by
    rw [Function.iterate_succ_apply', ff_iterate pi m (by omega)]
    exact ff_step pi hm

/-! ### Claims C1, C2, C3, C10 -/

/-- Claim C1, counterexample: for a single particle at rest with zero pressure
force, one substep of `SPHTestBruteForce::substep` changes the velocity by
`gravity * dt * dt`, not by `gravity * dt` as the claim states (`force` is
already scaled by `dt` when it is again multiplied by `dt` in
`p.velocity += force * dt`). -/
theorem claim1_cex :
    (substepBF 3 [ffParticle 0]).map Particle.velocity = [dt • (dt • gravity)]
    ∧ (dt • (dt • gravity) : Vector3) ≠ dt • gravity := by
  constructor <;> decide

/-- Claim C1, amended: the brute-force force integration performs
`velocity += total_force * dt * dt` (the force is scaled by `dt` twice), then
`position += velocity * dt`; consequently a particle in free fall with zero
pressure force has velocity `gravity * (n * dt * dt)` after `n` substeps
(while no boundary clamp activates, here guaranteed for `n ≤ 10000`). -/
theorem claim1_amended (pi : ℚ) (n : ℕ) (hn : n ≤ 10000) :
    (∀ (ps : List Particle) (q : Particle),
      forceUpdate ps q = clampParticle
        { position := q.position
            + dt • (q.velocity + dt • (dt • (k • pressureForce ps q + gravity))),
          velocity := q.velocity + dt • (dt • (k • pressureForce ps q + gravity)),
          density_inverse := 0, pressure := 0 })
    ∧ (substepBF pi)^[n] [ffParticle 0] = [ffParticle n]
    ∧ (ffParticle n).velocity = ((n : ℚ) * (dt * dt)) • gravity := by
  refine ⟨fun ps q => rfl, ff_iterate pi n hn, ?_⟩
  unfold ffParticle ffVel
  ext <;> simp [dt, gravity] <;> ring

/-- Claim C1, witness for the amended theorem at `pi = 3`, `n = 2`. -/
theorem claim1_witness :
    (2 : ℕ) ≤ 10000 ∧ (substepBF 3)^[2] [ffParticle 0] = [ffParticle 2] :=
  ⟨by norm_num, (claim1_amended 3 2 (by norm_num)).2.1⟩

/-- Two particles within kernel radius of each other, used to exhibit the
order dependence of the force pass. -/
def pA : Particle := ⟨⟨1/2, 1/2, 1/2⟩, 0, 0, 0⟩

/-- See `pA`. -/
def pB : Particle := ⟨⟨51/100, 1/2, 1/2⟩, 0, 0, 0⟩

/-- Claim C2, counterexample: the substep result is not independent of the
particle processing order.  Processing `[pA, pB]` and `[pB, pA]` gives the
particle that started as `pA` two different states, because the force pass
mutates particles in place: the second-processed particle reads the
first-processed particle's already-updated position and already-reset
(zeroed) `pressure`/`density_inverse`. -/
theorem claim2_cex :
    (substepBF 3 [pA, pB])[0]? ≠ (substepBF 3 [pB, pA])[1]? := by
  decide

/-- Claim C2, amended: the force pass is a sequential in-place sweep.  After
the first particle is processed, its `pressure` and `density_inverse` are
already reset to zero and its position is already updated — this is the state
the second particle's neighbor loop reads — even though the density pass had
produced a nonzero `pressure` for it; consequently the substep result depends
on the processing order (shown here for the second particle as well). -/
theorem claim2_amended :
    ((forcePassStep (densityPass 3 [pA, pB]) 0).map Particle.pressure)[0]? = some 0
    ∧ ((forcePassStep (densityPass 3 [pA, pB]) 0).map Particle.density_inverse)[0]? = some 0
    ∧ ((forcePassStep (densityPass 3 [pA, pB]) 0).map Particle.position)[0]?
        ≠ ((densityPass 3 [pA, pB]).map Particle.position)[0]?
    ∧ ((densityPass 3 [pA, pB]).map Particle.pressure)[0]? ≠ some 0
    ∧ (substepBF 3 [pA, pB])[1]? ≠ (substepBF 3 [pB, pA])[0]? := by
  refine ⟨by decide, by decide, by decide, by decide, by decide⟩

/-- Claim C3, counterexample: for a single isolated particle the computed
density is not zero — the neighbor loop includes the particle itself, whose
self-distance 0 contributes `(h²)³`; at `pi = 3` the scaled density is
105000. -/
theorem claim3_cex :
    rhoOf 3 [ffParticle 0] (ffParticle 0) = 105000 ∧ (105000 : ℚ) ≠ 0 := by
  constructor <;> decide

/-- Claim C3, amended: for a single isolated particle the density is
`c * (h²)³ ≠ 0`, its `density_inverse` becomes the finite value
`1 / (c (h²)³)`, the accumulated pressure-gradient force on it is zero, and
its motion is gravity-only (the substep reduces to the gravity update followed
by the boundary clamps). -/
theorem claim3_amended (pi : ℚ) (p : Particle) (hpi : 0 < pi) :
    rhoOf pi [p] p = cNorm pi * (h * h) ^ 3
    ∧ rhoOf pi [p] p ≠ 0
    ∧ (densityUpdate pi [p] p).density_inverse = 1 / (cNorm pi * (h * h) ^ 3)
    ∧ pressureForce [densityUpdate pi [p] p] (densityUpdate pi [p] p) = 0
    ∧ substepBF pi [p] =
        [clampParticle
          { position := p.position + dt • (p.velocity + dt • (dt • gravity)),
            velocity := p.velocity + dt • (dt • gravity),
            density_inverse := 0, pressure := 0 }] := by
  have h1 : rhoOf pi [p] p = cNorm pi * (h * h) ^ 3 := by
    unfold rhoOf rhoSum
    simp [densityContrib_self]
  have hne : rhoOf pi [p] p ≠ 0 := by
    rw [h1]
    exact ne_of_gt (mul_pos (cNorm_pos hpi) (by norm_num [h, dx]))
  refine ⟨h1, hne, ?_, pressureForce_single _, substepBF_single pi p⟩
  simp [densityUpdate, h1]

/-- Claim C3, witness for the amended theorem at `pi = 3` and the particle
`ffParticle 0`. -/
theorem claim3_witness :
    (0 : ℚ) < 3 ∧ rhoOf 3 [ffParticle 0] (ffParticle 0) ≠ 0 :=
  ⟨by norm_num, (claim3_amended 3 (ffParticle 0) (by norm_num)).2.1⟩

/-- Claim C10: the brute-force density loop ranges over all particles
including the particle itself, which contributes `(h²)³` at self-distance 0;
hence every particle's scaled density is at least `c * (h²)³ > 0` and the
division `1 / rho` never divides by zero. -/
theorem claim10_thm (pi : ℚ) (ps : List Particle) (p : Particle)
    (hpi : 0 < pi) (hp : p ∈ ps) :
    densityContrib p p = (h * h) ^ 3
    ∧ cNorm pi * (h * h) ^ 3 ≤ rhoOf pi ps p
    ∧ 0 < rhoOf pi ps p := by
  have hbound : cNorm pi * (h * h) ^ 3 ≤ rhoOf pi ps p := by
    unfold rhoOf
    exact mul_le_mul_of_nonneg_left (le_rhoSum hp) (le_of_lt (cNorm_pos hpi))
  refine ⟨densityContrib_self p, hbound, ?_⟩
  have hpos : (0 : ℚ) < cNorm pi * (h * h) ^ 3 :=
    mul_pos (cNorm_pos hpi) (by norm_num [h, dx])
  exact lt_of_lt_of_le hpos hbound

/-- Claim C10, witness at `pi = 3` and the singleton system `[ffParticle 0]`. -/
theorem claim10_witness :
    (0 : ℚ) < 3 ∧ ffParticle 0 ∈ [ffParticle 0]
    ∧ 0 < rhoOf 3 [ffParticle 0] (ffParticle 0) :=
  ⟨by norm_num, List.mem_singleton_self _,
    (claim10_thm 3 [ffParticle 0] (ffParticle 0) (by norm_num)
      (List.mem_singleton_self _)).2.2⟩

/-! ### Claims C4, C5 -/

lemma substepsPerFrame_eq : substepsPerFrame = 334 := by
  unfold substepsPerFrame
  rw [show frame_dt / dt = (1000 : ℚ) / 3 by norm_num [frame_dt, dt]]
  rw [Nat.ceil_eq_iff (by norm_num)]
  constructor <;> norm_num

/-- Claim C4, counterexample: the true truncated quotient is
`⌊frame_dt / dt⌋ = 333`, but the loop guard `i < frame_dt / dt` compares the
integer counter against the real quotient, so `advance` runs 334 substeps,
not 333. -/
theorem claim4_cex :
    Int.floor (frame_dt / dt) = 333 ∧ substepsPerFrame ≠ 333
    ∧ substepsPerFrame = 334 := by
  refine ⟨?_, ?_, substepsPerFrame_eq⟩
  · rw [show frame_dt / dt = (1000 : ℚ) / 3 by norm_num [frame_dt, dt]]
    rw [Int.floor_eq_iff]
    constructor <;> norm_num
  · rw [substepsPerFrame_eq]
    norm_num

/-- Claim C4, amended: the loop `for (int i = 0; i < frame_dt / dt; i++)` runs
once for each integer `i` below the real quotient — `⌈frame_dt / dt⌉ = 334`
iterations (one more than the truncated quotient, the fractional remainder
causes an extra substep); `advance` then increments the frame counter once and
invokes the output hook once. -/
theorem claim4_amended :
    (∀ i : ℕ, ((i : ℚ) < frame_dt / dt ↔ i < substepsPerFrame))
    ∧ substepsPerFrame = 334
    ∧ (∀ (pi : ℚ) (s : BFState),
        (advanceBF pi s).1.current_frame = s.current_frame + 1
        ∧ (advanceBF pi s).1.particles = (substepBF pi)^[substepsPerFrame] s.particles
        ∧ (advanceBF pi s).2.length = 1) := by
  refine ⟨?_, substepsPerFrame_eq, fun pi s => ⟨rfl, by simp only [advanceBF], rfl⟩⟩
  intro i
  rw [substepsPerFrame_eq, show frame_dt / dt = (1000 : ℚ) / 3 by norm_num [frame_dt, dt]]
  rw [lt_div_iff (by norm_num : (0 : ℚ) < 3)]
  constructor
  · intro hi
    have h3 : (i : ℚ) * 3 < 1000 := hi
    have h4 : i * 3 < 1000 := by exact_mod_cast h3
    omega
  · intro hi
    have h4 : i * 3 < 1000 := by omega
    have h3 : ((i * 3 : ℕ) : ℚ) < 1000 := by exact_mod_cast h4
    push_cast at h3
    linarith

/-- Claim C4, witness for the loop-guard characterization at `i = 5`. -/
theorem claim4_witness :
    ((5 : ℚ) < frame_dt / dt ↔ 5 < substepsPerFrame) ∧ substepsPerFrame = 334 :=
  ⟨claim4_amended.1 5, claim4_amended.2.1⟩

lemma runSubstepsPangu_len (bs : ℕ) :
    ∀ (n : ℕ) (s : PanguState), (runSubstepsPangu bs n s).2.length = n
  | 0, _ => rfl
  | n + 1, s => by
    simp [runSubstepsPangu, runSubstepsPangu_len bs n]

/-- The empty grid and initial driver state used as a concrete input for the
block-grid variant. -/
def emptyPGrid : PGrid := ⟨[], fun _ => none⟩

/-- See `emptyPGrid`. -/
def s0Pangu : PanguState := ⟨emptyPGrid, 0⟩

/-- Claim C5, counterexample: in the block-grid variant, one `advance()` call
performs 335 output-hook invocations (one inside each of the 334 substeps —
`SPHTestPangu::substep` ends with `output(get_filename(current_frame))` — plus
the one of `advance` itself), not exactly one per frame. -/
theorem claim5_cex :
    ((advancePangu 4 s0Pangu).2).length = 335 ∧ (335 : ℕ) ≠ 1 := by
  constructor
  · have hlen : ((advancePangu 4 s0Pangu).2).length
        = (runSubstepsPangu 4 substepsPerFrame s0Pangu).2.length + 1 := by
      simp only [advancePangu, List.length_append, List.length_singleton]
    rw [hlen, runSubstepsPangu_len, substepsPerFrame_eq]
  · norm_num

/-- Claim C5, amended: the brute-force variant invokes the output hook exactly
once per `advance()` with a snapshot holding one entry per particle
(scaled position, fixed radius `h * 10`), and never during substeps; the
block-grid variant's substep itself invokes the hook (with fixed radius 0.3
per entry), so its `advance()` performs `substepsPerFrame + 1` invocations. -/
theorem claim5_amended :
    (∀ (pi : ℚ) (s : BFState),
        (advanceBF pi s).2 = [outputBF (advanceBF pi s).1.particles]
        ∧ (advanceBF pi s).2.length = 1)
    ∧ (∀ (ps : List Particle), (outputBF ps).length = ps.length
        ∧ ∀ e ∈ outputBF ps, e.2 = h * 10)
    ∧ (∀ (bs : ℕ) (s : PanguState),
        ((advancePangu bs s).2).length = substepsPerFrame + 1
        ∧ (substepPangu bs s).2 = outputPangu (advanceGrid bs s.grid))
    ∧ (∀ (g : PGrid), ∀ e ∈ outputPangu g, e.2 = 3/10) := by
  refine ⟨fun pi s => ⟨by simp only [advanceBF], by simp only [advanceBF, List.length_singleton]⟩, ?_, ?_, ?_⟩
  · intro ps
    refine ⟨by simp [outputBF], ?_⟩
    intro e he
    obtain ⟨p, _, rfl⟩ := List.mem_map.mp he
    rfl
  · intro bs s
    refine ⟨?_, rfl⟩
    have hlen : ((advancePangu bs s).2).length
        = (runSubstepsPangu bs substepsPerFrame s).2.length + 1 := by
      simp only [advancePangu, List.length_append, List.length_singleton]
    rw [hlen, runSubstepsPangu_len]
  · intro g e he
    obtain ⟨p, _, rfl⟩ := List.mem_map.mp he
    rfl

/-- Claim C5, witness for the amended theorem: the output-hook entry of a
concrete brute-force snapshot carries the fixed radius `h * 10`. -/
theorem claim5_witness :
    ((10 : ℚ) • (ffParticle 0).position, h * 10) ∈ outputBF [ffParticle 0]
    ∧ (((10 : ℚ) • (ffParticle 0).position, h * 10) : Vector3 × ℚ).2 = h * 10 :=
  ⟨List.mem_map_of_mem _ (List.mem_singleton_self _),
    (claim5_amended.2.1 [ffParticle 0]).2 _
      (List.mem_map_of_mem _ (List.mem_singleton_self _))⟩

/-! ### Claim C6 -/

lemma clamp_y (p : Particle) :
    (clampParticle p).position.y = (if p.position.y < h / 2 then h / 2 else p.position.y)
    ∧ (clampParticle p).velocity.y
        = (if p.position.y < h / 2 then max p.velocity.y 0 else p.velocity.y) := by
  unfold clampParticle
  simp

lemma clamp_x (p : Particle) :
    (clampParticle p).position.x
        = (if p.position.x < 0 then 0 else if p.position.x > 1 then 1 else p.position.x)
    ∧ (clampParticle p).velocity.x
        = (if p.position.x < 0 then max p.velocity.x 0
            else if p.position.x > 1 then min p.velocity.x 0 else p.velocity.x) := by
  unfold clampParticle
  simp only [clampZhigh_px, clampXhigh_px, clampZlow_px, clampXlow_px, clampY_px,
    clampZhigh_vx, clampXhigh_vx, clampZlow_vx, clampXlow_vx, clampY_vx]
  by_cases hx : p.position.x < 0 <;> by_cases hx1 : p.position.x > 1 <;>
    norm_num [hx, hx1]

lemma clamp_z (p : Particle) :
    (clampParticle p).position.z
        = (if p.position.z < 0 then 0 else if p.position.z > 1 then 1 else p.position.z)
    ∧ (clampParticle p).velocity.z
        = (if p.position.z < 0 then max p.velocity.z 0
            else if p.position.z > 1 then min p.velocity.z 0 else p.velocity.z) := by
  unfold clampParticle
  simp only [clampZhigh_pz, clampXhigh_pz, clampZlow_pz, clampXlow_pz, clampY_pz,
    clampZhigh_vz, clampXhigh_vz, clampZlow_vz, clampXlow_vz, clampY_vz]
  by_cases hz : p.position.z < 0 <;> by_cases hz1 : p.position.z > 1 <;>
    norm_num [hz, hz1]

/-- A particle that leaves the domain through its top face. -/
def pTop : Particle := ⟨⟨1/2, 999/1000, 1/2⟩, ⟨0, 10, 0⟩, 0, 0⟩

/-- Claim C6, counterexample: a particle carried beyond the domain's upper
bound on the vertical axis in one substep ends at `y ≈ 1.002 > 1` and is not
clamped to the bound — there is no upper clamp on the `y` axis. -/
theorem claim6_cex :
    (substepBF 3 [pTop]).map (fun p => p.position.y) = [10019999973/10000000000]
    ∧ (1 : ℚ) < 10019999973/10000000000
    ∧ (10019999973/10000000000 : ℚ) ≠ 1 := by
  refine ⟨by decide, by norm_num, by norm_num⟩

/-- Claim C6, amended: the boundary enforcement clamps the lower bound of all
three axes (the vertical lower bound being `h/2`, the floor plane) flooring
the velocity component at 0, and the upper bound of the `x` and `z` axes only
(at 1) ceiling the velocity component at 0; the vertical axis has no upper
clamp — a position above the domain passes through unchanged. -/
theorem claim6_amended (p : Particle) :
    (p.position.y < h / 2 →
      (clampParticle p).position.y = h / 2
      ∧ (clampParticle p).velocity.y = max p.velocity.y 0)
    ∧ (¬ p.position.y < h / 2 →
      (clampParticle p).position.y = p.position.y
      ∧ (clampParticle p).velocity.y = p.velocity.y)
    ∧ (p.position.x < 0 →
      (clampParticle p).position.x = 0
      ∧ (clampParticle p).velocity.x = max p.velocity.x 0)
    ∧ (p.position.x > 1 →
      (clampParticle p).position.x = 1
      ∧ (clampParticle p).velocity.x = min p.velocity.x 0)
    ∧ (¬ p.position.x < 0 → ¬ p.position.x > 1 →
      (clampParticle p).position.x = p.position.x
      ∧ (clampParticle p).velocity.x = p.velocity.x)
    ∧ (p.position.z < 0 →
      (clampParticle p).position.z = 0
      ∧ (clampParticle p).velocity.z = max p.velocity.z 0)
    ∧ (p.position.z > 1 →
      (clampParticle p).position.z = 1
      ∧ (clampParticle p).velocity.z = min p.velocity.z 0)
    ∧ (¬ p.position.z < 0 → ¬ p.position.z > 1 →
      (clampParticle p).position.z = p.position.z
      ∧ (clampParticle p).velocity.z = p.velocity.z) := by
  refine ⟨fun hy => ?_, fun hy => ?_, fun hx => ?_, fun hx1 => ?_,
    fun hx hx1 => ?_, fun hz => ?_, fun hz1 => ?_, fun hz hz1 => ?_⟩
  · rw [(clamp_y p).1, (clamp_y p).2, if_pos hy, if_pos hy]
    exact ⟨rfl, rfl⟩
  · rw [(clamp_y p).1, (clamp_y p).2, if_neg hy, if_neg hy]
    exact ⟨rfl, rfl⟩
  · rw [(clamp_x p).1, (clamp_x p).2, if_pos hx, if_pos hx]
    exact ⟨rfl, rfl⟩
  · have hx : ¬ p.position.x < 0 := by intro hc; exact absurd hx1 (by linarith)
    rw [(clamp_x p).1, (clamp_x p).2, if_neg hx, if_neg hx, if_pos hx1, if_pos hx1]
    exact ⟨rfl, rfl⟩
  · rw [(clamp_x p).1, (clamp_x p).2, if_neg hx, if_neg hx, if_neg hx1, if_neg hx1]
    exact ⟨rfl, rfl⟩
  · rw [(clamp_z p).1, (clamp_z p).2, if_pos hz, if_pos hz]
    exact ⟨rfl, rfl⟩
  · have hz : ¬ p.position.z < 0 := by intro hc; exact absurd hz1 (by linarith)
    rw [(clamp_z p).1, (clamp_z p).2, if_neg hz, if_neg hz, if_pos hz1, if_pos hz1]
    exact ⟨rfl, rfl⟩
  · rw [(clamp_z p).1, (clamp_z p).2, if_neg hz, if_neg hz, if_neg hz1, if_neg hz1]
    exact ⟨rfl, rfl⟩

/-- A particle below the floor plane. -/
def pLow : Particle := ⟨⟨1/2, 0, 1/2⟩, ⟨0, -5, 0⟩, 0, 0⟩

/-- Claim C6, witness for the amended theorem at the concrete particle
`pLow`, which lies below the floor plane. -/
theorem claim6_witness :
    pLow.position.y < h / 2
    ∧ (clampParticle pLow).position.y = h / 2
    ∧ (clampParticle pLow).velocity.y = max pLow.velocity.y 0 := by
  have hc : pLow.position.y < h / 2 := by decide
  exact ⟨hc, ((claim6_amended pLow).1 hc).1, ((claim6_amended pLow).1 hc).2⟩

/-! ### Claims C7, C8, C9 -/

lemma mem_gatherInto {bs : ℕ} {g : PGrid} {c : Int3} {pt : Particle} :
    pt ∈ gatherInto bs g c ↔
      ∃ o ∈ offsets27, ∃ ab, g.lookup (c + o) = some ab ∧ pt ∈ ab.particles
        ∧ inRangeB bs c (gridPos pt) := by
  unfold gatherInto
  rw [List.mem_flatMap]
  constructor
  · rintro ⟨o, ho, hmo⟩
    cases hlo : g.lookup (c + o) with
    | none =>
      simp only [hlo] at hmo
      exact absurd hmo (List.not_mem_nil pt)
    | some ab =>
      simp only [hlo] at hmo
      rw [List.mem_filter] at hmo
      exact ⟨o, ho, ab, hlo, hmo.1, of_decide_eq_true hmo.2⟩
  · rintro ⟨o, ho, ab, hlo, hm, hr⟩
    refine ⟨o, ho, ?_⟩
    simp only [hlo]
    exact List.mem_filter.mpr ⟨hm, decide_eq_true hr⟩

lemma updateBlock_particles {bs : ℕ} {g : PGrid} {c : Int3} {b : PBlock}
    (hu : updateBlock bs g c = some b) : b.particles = gatherInto bs g c := by
  unfold updateBlock at hu
  cases hl : g.lookup c with
  | none =>
    simp only [hl] at hu
    exact absurd hu (by simp)
  | some self =>
    simp only [hl, Option.some.injEq] at hu
    subst hu
    rfl

lemma updateBlock_mem_range {bs : ℕ} {g : PGrid} {c : Int3} {b : PBlock}
    {pt : Particle} (hu : updateBlock bs g c = some b) (hm : pt ∈ b.particles) :
    inRangeB bs c (gridPos pt) := by
  rw [updateBlock_particles hu] at hm
  obtain ⟨o, ho, ab, hlo, hmem, hr⟩ := mem_gatherInto.mp hm
  exact hr

lemma advanceGrid_lookup_some {bs : ℕ} {g : PGrid} {c : Int3} {b : PBlock}
    (hb : (advanceGrid bs g).lookup c = some b) : updateBlock bs g c = some b := by
  simp only [advanceGrid] at hb
  by_cases hc : c ∈ g.coords
  · rwa [if_pos hc] at hb
  · rw [if_neg hc] at hb
    exact absurd hb (by simp)

lemma inRange_axis_unique {bs : ℕ} (hbs : 0 < bs) {a b : ℤ} {x : ℚ}
    (h1a : (bs : ℚ) * (a : ℚ) - 1/2 ≤ x) (h1b : x < (bs : ℚ) * ((a : ℚ) + 1) - 1/2)
    (h2a : (bs : ℚ) * (b : ℚ) - 1/2 ≤ x) (h2b : x < (bs : ℚ) * ((b : ℚ) + 1) - 1/2) :
    a = b := by
  have hbsq : (0 : ℚ) < (bs : ℚ) := by exact_mod_cast hbs
  have k1 : (bs : ℚ) * (a : ℚ) < (bs : ℚ) * ((b : ℚ) + 1) := by linarith
  have k2 : (bs : ℚ) * (b : ℚ) < (bs : ℚ) * ((a : ℚ) + 1) := by linarith
  have k3 : (a : ℚ) < (b : ℚ) + 1 := lt_of_mul_lt_mul_left k1 (le_of_lt hbsq)
  have k4 : (b : ℚ) < (a : ℚ) + 1 := lt_of_mul_lt_mul_left k2 (le_of_lt hbsq)
  have k5 : a < b + 1 := by exact_mod_cast k3
  have k6 : b < a + 1 := by exact_mod_cast k4
  omega

/-- Claim C7, counterexample: with `Block::size = 4`, the grid position
`(4, 1, 1)` lies exactly on the boundary between the adjacent blocks `(0,0,0)`
(extent `[0,4)` in cells) and `(1,0,0)` (extent `[4,8)`), yet it passes only
the second block's candidate test: the gather range is `[4 bs c - 1/2,
4 bs (c+1) - 1/2)` — shifted down by half a cell, widened below but narrowed
above, not widened on both sides as the claim states. -/
theorem claim7_cex :
    ¬ inRangeB 4 (0, 0, 0) ⟨4, 1, 1⟩ ∧ inRangeB 4 (1, 0, 0) ⟨4, 1, 1⟩ := by
  constructor <;> decide

/-- A particle placed exactly at the boundary between the adjacent blocks
`(0,0,0)` and `(1,0,0)` (grid position `(4,1,1)` with block size 4), resident
in block `(0,0,0)`'s buffer in the previous generation. -/
def pBdry : Particle := ⟨⟨1/5, 1/20, 1/20⟩, 0, 0, 0⟩

/-- Previous-generation block `(0,0,0)` of the two-block boundary scenario,
holding `pBdry`. -/
def blkW0 : PBlock := ⟨(0, 0, 0), [0], [pBdry]⟩

/-- Previous-generation block `(1,0,0)` of the two-block boundary scenario. -/
def blkW1 : PBlock := ⟨(4, 0, 0), [1], []⟩

/-- The two-block previous-generation grid of the boundary scenario. -/
def g2W : PGrid :=
  ⟨[(0, 0, 0), (1, 0, 0)],
   fun c => if c = (0, 0, 0) then some blkW0
            else if c = (1, 0, 0) then some blkW1 else none⟩

/-- Claim C7, amended: each block's candidate-gather extent is its spatial
extent in grid-cell units shifted by minus half a cell on both ends (widened
below, narrowed above); the candidate ranges of distinct blocks are therefore
disjoint, so a particle placed exactly at the boundary between two adjacent
blocks passes exactly one block's candidate test, and it ends up resident in
exactly one block's final particle buffer in the next generation (no
duplication): it is gathered into every block of the new generation whose
ancestor neighborhood holds it and whose candidate test it passes — exactly
one — and into no other, as the two-block boundary scenario exhibits
concretely. -/
theorem claim7_amended :
    (∀ bs : ℕ, 0 < bs → ∀ (c1 c2 : Int3) (g : Vector3),
        inRangeB bs c1 g → inRangeB bs c2 g → c1 = c2)
    ∧ (∀ bs : ℕ, 0 < bs → ∀ (G : PGrid) (c1 c2 : Int3) (b1 b2 : PBlock) (pt : Particle),
        updateBlock bs G c1 = some b1 → updateBlock bs G c2 = some b2 →
        pt ∈ b1.particles → pt ∈ b2.particles → c1 = c2)
    ∧ (∀ (bs : ℕ) (G : PGrid) (c : Int3) (b : PBlock) (pt : Particle) (o : Int3)
        (ab : PBlock), (advanceGrid bs G).lookup c = some b → o ∈ offsets27 →
        G.lookup (c + o) = some ab → pt ∈ ab.particles →
        inRangeB bs c (gridPos pt) → pt ∈ b.particles)
    ∧ (((advanceGrid 4 g2W).lookup (1, 0, 0)).map PBlock.particles = some [pBdry]
        ∧ ((advanceGrid 4 g2W).lookup (0, 0, 0)).map PBlock.particles = some []) := by
  have hdisj : ∀ bs : ℕ, 0 < bs → ∀ (c1 c2 : Int3) (g : Vector3),
      inRangeB bs c1 g → inRangeB bs c2 g → c1 = c2 := by
    intro bs hbs c1 c2 g hg1 hg2
    obtain ⟨x1, y1, z1⟩ := c1
    obtain ⟨x2, y2, z2⟩ := c2
    simp only [inRangeB] at hg1 hg2
    obtain ⟨⟨a1, a2⟩, ⟨b1, b2⟩, ⟨d1, d2⟩⟩ := hg1
    obtain ⟨⟨e1, e2⟩, ⟨f1, f2⟩, ⟨j1, j2⟩⟩ := hg2
    simp only [Prod.mk.injEq]
    exact ⟨inRange_axis_unique hbs a1 a2 e1 e2,
      inRange_axis_unique hbs b1 b2 f1 f2,
      inRange_axis_unique hbs d1 d2 j1 j2⟩
  refine ⟨hdisj, ?_, ?_, by decide, by decide⟩
  · intro bs hbs G c1 c2 b1 b2 pt hu1 hu2 hm1 hm2
    exact hdisj bs hbs c1 c2 (gridPos pt)
      (updateBlock_mem_range hu1 hm1) (updateBlock_mem_range hu2 hm2)
  · intro bs G c b pt o ab hb ho hab hm hr
    rw [updateBlock_particles (advanceGrid_lookup_some hb)]
    exact mem_gatherInto.mpr ⟨o, ho, ab, hab, hm, hr⟩

/-- Claim C7, witness for the amended theorem: the disjointness statement
applied at a concrete block size, coordinate and grid position. -/
theorem claim7_witness : 0 < 4 ∧ ((1, 0, 0) : Int3) = (1, 0, 0) :=
  ⟨by norm_num,
    claim7_amended.1 4 (by norm_num) (1, 0, 0) (1, 0, 0) ⟨4, 1, 1⟩
      (by decide) (by decide)⟩

/-- Claim C8: after a migration pass, a block of the new generation contains
exactly the particles of the previous generation's 3³ ancestor neighborhood
whose grid position satisfies
`base_coord - 0.5 ≤ grid_pos < base_coord + Block::size - 0.5` componentwise
(the candidate test `inRangeB`). -/
theorem claim8_thm (bs : ℕ) (g : PGrid) (c : Int3) (b : PBlock)
    (hb : (advanceGrid bs g).lookup c = some b) (pt : Particle) :
    pt ∈ b.particles ↔
      ∃ o ∈ offsets27, ∃ ab, g.lookup (c + o) = some ab ∧ pt ∈ ab.particles
        ∧ inRangeB bs c (gridPos pt) := by
  have hb' : updateBlock bs g c = some b := by
    simp only [advanceGrid] at hb
    by_cases hc : c ∈ g.coords
    · rwa [if_pos hc] at hb
    · rw [if_neg hc] at hb
      exact absurd hb (by simp)
  rw [updateBlock_particles hb']
  exact mem_gatherInto

/-- A particle resident in the single block of the witness grid `gW`:
its grid position is `(1, 1, 1)`. -/
def pW : Particle := ⟨⟨1/20, 1/20, 1/20⟩, 0, 0, 0⟩

/-- The single block of the witness grid `gW`. -/
def blkW : PBlock := ⟨(0, 0, 0), [7], [pW]⟩

/-- A one-block grid used as a concrete witness input. -/
def gW : PGrid := ⟨[(0, 0, 0)], fun c => if c = (0, 0, 0) then some blkW else none⟩

/-- Claim C8, witness: the membership characterization applied to the
one-block grid `gW` with block size 4. -/
theorem claim8_witness : pW ∈ blkW.particles := by
  have hiff := claim8_thm 4 gW (0, 0, 0) blkW (by decide) pW
  exact hiff.mpr ⟨(0, 0, 0), by decide, blkW, by decide, by decide, by decide⟩

/-- Claim C9: the self ancestor at offset `(0,0,0)` is required: if it is
absent the block update fails the fatal assertion (modelled as `none`, no
recovery); when it exists, the new block's field-node array is a verbatim copy
of that ancestor's field-node array. -/
theorem claim9_thm (bs : ℕ) (g : PGrid) (c : Int3) :
    (g.lookup c = none → updateBlock bs g c = none)
    ∧ (∀ a : PBlock, g.lookup c = some a →
        ∃ b : PBlock, updateBlock bs g c = some b ∧ b.nodes = a.nodes
          ∧ b.particles = gatherInto bs g c) := by
  constructor
  · intro hn
    unfold updateBlock
    rw [hn]
  · intro a ha
    unfold updateBlock
    rw [ha]
    exact ⟨_, rfl, rfl, rfl⟩

/-- Claim C9, witness: applied to the one-block grid `gW`, whose block's
field-node array `[7]` is copied verbatim. -/
theorem claim9_witness : (updateBlock 4 gW (0, 0, 0)).map PBlock.nodes = some [7] := by
  obtain ⟨b, hb, hn, -⟩ := (claim9_thm 4 gW (0, 0, 0)).2 blkW (by decide)
  rw [hb]
  simp [hn, blkW]

end SPH
